import Mathlib

/-!
Verification of the Vibe Coding System pipeline coordinator and agents.

Shallow embedding of the source:
* `src/main.py` — the FastAPI coordinator (`create_project`,
  `process_project_request`, `get_project_status`, `delete_project`);
* `src/agents/frontend.py` — `implement_frontend`, the fence clean-up in
  `_generate_component` and `_create_config_files`;
* `src/agents/backend.py` — `implement_backend` (the file is truncated:
  `_process_task` and `_finalize_backend` are referenced but absent, so they
  are modelled as abstract collaborators).

The coordinator is modelled as an event trace: each assignment to the shared
project record (`status`, `progress`, a `details` key) becomes one event,
in the order the statements appear in `process_project_request`.  Every
call into an agent or into the file manager inside the `try` block is a
potential raiser; a run is therefore parameterised by which call (if any)
raises, together with the message of the raised exception.  Progress values
are embedded as exact rationals (the source only assigns and compares the
fixed literals 0.0 .. 1.0, no float arithmetic occurs).
-/

namespace VibeCoding

set_option maxHeartbeats 1600000 in
/-- Detail values stored in the `details` mapping of a project record.
Stage artifacts are opaque to the coordinator (they come from the external
generative model), so they are embedded as atomic tokens; request fields and
the created-files listing keep their payloads. -/
inductive Val where
  | str (s : String)
  | bool (b : Bool)
  | files (fs : List String)
  | planDoc
  | architectureDoc
  | frontendResultsDoc
  | backendResultsDoc
  | aiResultsDoc
  | emptyAiDoc
  | docResultsDoc
  | finalReportDoc
deriving DecidableEq

/-- The request body of `POST /project` (class `ProjectRequest`, main.py
lines 59-66). -/
structure ProjectRequest where
  project_name : String
  description : String
  frontend_framework : String
  backend_framework : String
  database : String
  include_ai : Bool
  deployment_target : String
deriving DecidableEq

/-- Python dict assignment `d[k] = v`: replace the value if the key is
present (keeping its position), append otherwise. -/
def dictSet (d : List (String × Val)) (k : String) (v : Val) : List (String × Val) :=
  if d.any (fun p => p.1 = k) then
    d.map (fun p => if p.1 = k then (k, v) else p)
  else
    d ++ [(k, v)]

/-- The initial `details` mapping written by `create_project`
(main.py lines 89-97). -/
def initDetails (req : ProjectRequest) : List (String × Val) :=
  [("description", .str req.description),
   ("frontend_framework", .str req.frontend_framework),
   ("backend_framework", .str req.backend_framework),
   ("database", .str req.database),
   ("include_ai", .bool req.include_ai),
   ("deployment_target", .str req.deployment_target),
   ("created_files", .files [])]

/-- Observation points of a pipeline run: the instants at which a stage call
has just returned (or was skipped), plus submission and the start of the
finalize stage.  These mark where the spec attaches its fixed progress
checkpoints. -/
inductive Mark where
  | submitted
  | planDone
  | archDone
  | frontendDone
  | backendDone
  | aiDoneOrSkipped
  | docsDone
  | finalizeStart
  | completedRun
deriving DecidableEq

/-- One mutation of the shared project record, or an observation marker, or
the invocation of the documentation stage (recorded with the AI artifact
argument it receives, main.py line 260). -/
inductive Event where
  | setStatus (s : String)
  | setProgress (p : ℚ)
  | setDetail (k : String) (v : Val)
  | mark (m : Mark)
  | callDocs (aiArg : Val)
deriving DecidableEq

/-- The calls inside the `try` block of `process_project_request` that can
raise: the project-directory setup (lines 166-168), the seven stage calls,
and the created-files listing `file_manager.get_project_files` (line 279). -/
inductive FailPoint where
  | atSetup
  | atPlan
  | atArchitecture
  | atFrontend
  | atBackend
  | atAi
  | atDocs
  | atFinalize
  | atGetFiles
deriving DecidableEq

/-- The `except` handler of `process_project_request` (lines 283-288):
status becomes `error` and the message text is recorded verbatim under the
`error` key of `details`. -/
def errEvents (msg : String) : List Event :=
  [.setStatus "error", .setDetail "error" (.str msg)]

/-- Events of lines 276-281: status `completed`, progress 1.0, the final
report, then the created-files listing (whose right-hand side
`file_manager.get_project_files` may raise before the assignment lands). -/
def tailComplete (fail : Option FailPoint) (msg : String) (files : List String) :
    List Event :=
  [.setStatus "completed", .setProgress 1, .setDetail "final_report" .finalReportDoc] ++
  (if fail = some .atGetFiles then errEvents msg
   else [.setDetail "created_files" (.files files), .mark .completedRun])

/-- Events from the return of the documentation stage onwards
(lines 263-281): status `finalizing`, progress 0.9, the doc results, the
finalize call, then completion. -/
def tailDocsDone (fail : Option FailPoint) (msg : String) (files : List String) :
    List Event :=
  [.mark .docsDone, .setStatus "finalizing", .setProgress (9/10),
   .setDetail "doc_results" .docResultsDoc, .mark .finalizeStart] ++
  (if fail = some .atFinalize then errEvents msg else tailComplete fail msg files)

/-- Events from entering the documentation step (lines 247-261): status
`creating_documentation`, progress 0.8, then the documentation call, which
receives the accumulated AI artifact (the empty structure when the AI stage
was skipped). -/
def tailDocs (aiArg : Val) (fail : Option FailPoint) (msg : String)
    (files : List String) : List Event :=
  [.setStatus "creating_documentation", .setProgress (8/10), .callDocs aiArg] ++
  (if fail = some .atDocs then errEvents msg else tailDocsDone fail msg files)

/-- Events of the optional AI step (lines 233-245): entered only when the
request opted in; otherwise the run skips directly to documentation with the
empty AI artifact. -/
def tailAiBlock (ai : Bool) (fail : Option FailPoint) (msg : String)
    (files : List String) : List Event :=
  if ai then
    [.setStatus "creating_ai_components"] ++
    (if fail = some .atAi then errEvents msg
     else [.mark .aiDoneOrSkipped, .setDetail "ai_results" .aiResultsDoc] ++
       tailDocs .aiResultsDoc fail msg files)
  else
    [.mark .aiDoneOrSkipped] ++ tailDocs .emptyAiDoc fail msg files

/-- Events from the return of the backend stage (lines 229-245): progress
0.7 (the status is not changed here), the backend results, then the AI
block. -/
def tailBackendDone (ai : Bool) (fail : Option FailPoint) (msg : String)
    (files : List String) : List Event :=
  [.mark .backendDone, .setProgress (7/10),
   .setDetail "backend_results" .backendResultsDoc] ++
  tailAiBlock ai fail msg files

/-- The full event trace of one execution of `process_project_request`
(main.py lines 159-288) for a request with `include_ai = ai`, where `fail`
names the call (if any) that raises with message `msg`, and `files` is the
listing returned by `file_manager.get_project_files` on line 279. -/
def runEvents (ai : Bool) (fail : Option FailPoint) (msg : String)
    (files : List String) : List Event :=
  [.mark .submitted] ++
  (if fail = some .atSetup then errEvents msg
   else [.setStatus "planning", .setProgress (1/10)] ++
    (if fail = some .atPlan then errEvents msg
     else [.mark .planDone, .setStatus "designing_architecture", .setProgress (2/10),
           .setDetail "project_plan" .planDoc] ++
      (if fail = some .atArchitecture then errEvents msg
       else [.mark .archDone, .setStatus "creating_frontend", .setProgress (3/10),
             .setDetail "architecture" .architectureDoc] ++
        (if fail = some .atFrontend then errEvents msg
         else [.mark .frontendDone, .setStatus "creating_backend", .setProgress (5/10),
               .setDetail "frontend_results" .frontendResultsDoc] ++
          (if fail = some .atBackend then errEvents msg
           else tailBackendDone ai fail msg files)))))

/-- The mutable project record (one entry of `active_projects`). -/
structure ProjState where
  status : String
  progress : ℚ
  details : List (String × Val)
deriving DecidableEq

/-- The record as written by `create_project` (main.py lines 84-98). -/
def initState (req : ProjectRequest) : ProjState :=
  ⟨"initializing", 0, initDetails req⟩

/-- Applying one event to the project record. -/
def applyEvent (st : ProjState) : Event → ProjState
  | .setStatus s => { st with status := s }
  | .setProgress p => { st with progress := p }
  | .setDetail k v => { st with details := dictSet st.details k v }
  | .mark _ => st
  | .callDocs _ => st

/-- The project record after a whole pipeline run. -/
def finalRun (req : ProjectRequest) (fail : Option FailPoint) (msg : String)
    (files : List String) : ProjState :=
  (runEvents req.include_ai fail msg files).foldl applyEvent (initState req)

/-- The successive values taken by `progress` during a run, starting from
the initial 0.0. -/
def progressTrace (events : List Event) : List ℚ :=
  0 :: events.filterMap (fun e =>
    match e with
    | .setProgress p => some p
    | _ => none)

/-- The successive values taken by `status` during a run, starting from the
initial `initializing`. -/
def statusTrace (events : List Event) : List String :=
  "initializing" :: events.filterMap (fun e =>
    match e with
    | .setStatus s => some s
    | _ => none)

/-- The value of `progress` at the first occurrence of a marker in the
trace (`cur` is the value on entry, 0.0 at submission). -/
def progressAtMark (cur : ℚ) : List Event → Mark → Option ℚ
  | [], _ => none
  | .setProgress p :: es, m => progressAtMark p es m
  | .mark m2 :: es, m => if m2 = m then some cur else progressAtMark cur es m
  | _ :: es, m => progressAtMark cur es m

/-- The arguments with which the documentation stage was invoked during a
run (at most one invocation occurs). -/
def docsArgs (events : List Event) : List Val :=
  events.filterMap (fun e =>
    match e with
    | .callDocs v => some v
    | _ => none)

/-- The keys assigned into `details` during a run, in order. -/
def detailSetKeys (events : List Event) : List String :=
  events.filterMap (fun e =>
    match e with
    | .setDetail k _ => some k
    | _ => none)

/-- The keys of `details` that some assignment in the trace rebinds while
already present (`seen` is the set of keys present so far). -/
def overwrittenKeys (seen : List String) : List Event → List String
  | [] => []
  | .setDetail k _ :: es =>
      if seen.contains k then k :: overwrittenKeys seen es
      else overwrittenKeys (seen ++ [k]) es
  | _ :: es => overwrittenKeys seen es

/-- A concrete request, used to instantiate counterexamples and witnesses
(the default field values of `ProjectRequest`, main.py lines 59-66). -/
def demoReq : ProjectRequest :=
  ⟨"demo", "a todo app", "react", "fastapi", "postgresql", false, "docker"⟩

/-- The same request opting into the AI stage. -/
def demoReqAi : ProjectRequest :=
  ⟨"demo", "a todo app", "react", "fastapi", "postgresql", true, "docker"⟩

/-- Python dict read `d.get(k)` on the details mapping. -/
def getDetail (d : List (String × Val)) (k : String) : Option Val :=
  (d.find? (fun p => p.1 == k)).map Prod.snd

/-! ### Task ordering (agents/frontend.py lines 63-77, agents/backend.py lines 63-78) -/

/-- One task of a stage plan: a dictionary with optional `task_id`,
`description` and `priority` entries. -/
structure Task where
  task_id : Option String
  description : Option String
  priority : Option String
deriving DecidableEq

/-- The sort key of a task:
`priority_map.get(t.get("priority", "medium"), 1)` with
`priority_map = ("high": 0, "medium": 1, "low": 2)` — a missing priority
reads as `"medium"` and an unrecognized one falls back to the default 1. -/
def priorityRank (t : Task) : Nat :=
  let p := t.priority.getD "medium"
  if p = "high" then 0 else if p = "medium" then 1 else if p = "low" then 2 else 1

/-- Insert a task in front of the first element of greater-or-equal rank. -/
def insertByRank (t : Task) : List Task → List Task
  | [] => [t]
  | u :: us =>
      if priorityRank t ≤ priorityRank u then t :: u :: us else u :: insertByRank t us

/-- Embedding of `sorted(tasks, key=...)` — Python guarantees a stable sort by the key;
this insertion sort, inserting each earlier element in front of all
equal-rank later elements, is extensionally that stable sort (established
below by the bucket characterization `sortTasks_buckets`). -/
def sortTasks : List Task → List Task
  | [] => []
  | t :: ts => insertByRank t (sortTasks ts)

/-- The sub-list of tasks of a given rank, in original order. -/
def rankFilter (k : Nat) (ts : List Task) : List Task :=
  ts.filter (fun t => priorityRank t == k)

/-! ### Stage executors and artifact persistence
(agents/frontend.py lines 42-85, agents/backend.py lines 42-84) -/

/-- The result dictionary returned by a per-task generator: the list of
files it created (further payload fields play no role here). -/
structure TaskResult where
  created_files : List String
deriving DecidableEq

/-- One entry of the frontend `completed_tasks` accumulator
(frontend.py lines 72-76): the task id, the description and the task
result. -/
structure CompletedEntry where
  task_id : Option String
  description : Option String
  result : TaskResult
deriving DecidableEq

/-- The results object built by `implement_frontend` (lines 58-61). -/
structure FrontendResults where
  completed_tasks : List CompletedEntry
  created_files : List String
deriving DecidableEq

/-- The results object built by `implement_backend` (lines 58-61); its
`completed_tasks` list holds the tasks themselves (line 77). -/
structure BackendResults where
  completed_tasks : List Task
  created_files : List String
deriving DecidableEq

/-- Content written to durable storage: raw text produced from templates or
adapter output, or a serialized stage-results object (`write_json` of a
results dictionary). -/
inductive StorageDoc where
  | text (s : String)
  | frontendResultsJson (r : FrontendResults)
  | backendResultsJson (r : BackendResults)
deriving DecidableEq

/-- One durable write under the project namespace: a relative path and the
content stored there. -/
structure WriteOp where
  path : String
  content : StorageDoc
deriving DecidableEq

/-- The collaborators invoked by `implement_frontend`: `_process_task`
(dispatching to the adapter-driven generators, lines 87-111) and
`_create_config_files` (lines 451-577).  Their outputs depend on the
external generative model, so they are abstracted as an environment
producing durable writes and per-task results. -/
structure FrontendEnv where
  processTask : Task → List WriteOp × TaskResult
  configWrites : List WriteOp

/-- One iteration of the frontend task loop (frontend.py lines 70-77):
process the task, append the completed entry, extend the created files. -/
def frontendStep (env : FrontendEnv)
    (acc : List WriteOp × List CompletedEntry × List String) (t : Task) :
    List WriteOp × List CompletedEntry × List String :=
  match env.processTask t with
  | (ws, r) =>
      (acc.1 ++ ws,
       acc.2.1 ++ [CompletedEntry.mk t.task_id t.description r],
       acc.2.2 ++ r.created_files)

/-- Embedding of `implement_frontend` (frontend.py lines 42-85): sorts the tasks by
priority, processes them sequentially accumulating `completed_tasks` and
`created_files`, creates the configuration files, and persists the results
object to `frontend/frontend_results.json` (line 83) before returning it. -/
def implement_frontend (env : FrontendEnv) (tasks : List Task) :
    List WriteOp × FrontendResults :=
  let sorted := sortTasks tasks
  let acc := sorted.foldl (frontendStep env)
    (([] : List WriteOp), ([] : List CompletedEntry), ([] : List String))
  let results : FrontendResults := ⟨acc.2.1, acc.2.2⟩
  (acc.1 ++ env.configWrites ++
     [⟨"frontend/frontend_results.json", .frontendResultsJson results⟩],
   results)

/-- Modelled from the spec: the collaborators invoked by
`implement_backend`.  The source file agents/backend.py is truncated —
`_process_task` and `_finalize_backend` are called (lines 75, 81) but absent
from the file — and `_setup_project_structure` (lines 86-623) emits
framework template payloads; per the spec these are stage-internal steps
that produce durable writes and report created files, abstracted here as an
environment.  `_process_task` may return an empty result (line 76 guards on
truthiness), hence the `Option`. -/
structure BackendEnv where
  setupWrites : List WriteOp
  setupCreatedFiles : List String
  processTask : Task → List WriteOp × Option TaskResult
  finalizeWrites : List Task → List WriteOp
  finalizeCreatedFiles : List Task → List String

/-- One iteration of the backend task loop (backend.py lines 74-78):
process the task; when its result is truthy, append the task itself to
`completed_tasks` and extend the created files. -/
def backendStep (env : BackendEnv)
    (acc : List WriteOp × List Task × List String) (t : Task) :
    List WriteOp × List Task × List String :=
  match env.processTask t with
  | (ws, some res) => (acc.1 ++ ws, acc.2.1 ++ [t], acc.2.2 ++ res.created_files)
  | (ws, none) => (acc.1 ++ ws, acc.2.1, acc.2.2)

/-- Embedding of `implement_backend` (backend.py lines 42-84): sorts the tasks by
priority, runs the project setup first, processes the tasks sequentially
(appending a task to `completed_tasks` only when its result is truthy),
runs the finalize step, and returns the results object.  No statement of
the function persists the results object itself. -/
def implement_backend (env : BackendEnv) (tasks : List Task) :
    List WriteOp × BackendResults :=
  let sorted := sortTasks tasks
  let acc := sorted.foldl (backendStep env)
    ((env.setupWrites, ([] : List Task), env.setupCreatedFiles))
  (acc.1 ++ env.finalizeWrites sorted,
   ⟨acc.2.1, acc.2.2 ++ env.finalizeCreatedFiles sorted⟩)

/-- The writes performed during the task-processing loop of
`implement_backend`, in processing order. -/
def backendTaskWrites (env : BackendEnv) (tasks : List Task) : List WriteOp :=
  (sortTasks tasks).flatMap (fun t => (env.processTask t).1)

/-- Whether a write trace persists a given backend results object. -/
def persistsBackendArtifact (ws : List WriteOp) (r : BackendResults) : Bool :=
  ws.any (fun w => w.content == .backendResultsJson r)

/-- A concrete backend environment: the Express/MongoDB branch of
`_setup_project_structure` (backend.py lines 103-372, payload text
abbreviated — its exact content plays no role), no tasks processed, and a
finalize step writing nothing further. -/
def expressSetupEnv : BackendEnv where
  setupWrites :=
    [⟨"backend/package.json", .text "package manifest"⟩,
     ⟨"backend/server.js", .text "express server"⟩,
     ⟨"backend/routes/index.js", .text "router"⟩,
     ⟨"backend/config/database.js", .text "mongoose connection"⟩,
     ⟨"backend/.env", .text "environment defaults"⟩,
     ⟨"backend/.gitignore", .text "ignore rules"⟩]
  setupCreatedFiles :=
    ["backend/package.json", "backend/server.js", "backend/routes",
     "backend/controllers", "backend/models", "backend/middleware",
     "backend/config", "backend/utils", "backend/tests",
     "backend/routes/index.js", "backend/config/database.js",
     "backend/.env", "backend/.gitignore"]
  processTask := fun _ => ([], none)
  finalizeWrites := fun _ => []
  finalizeCreatedFiles := fun _ => []

/-! ### Model response clean-up
(frontend.py lines 165-175 and 476-484)

The source manipulates the response text exclusively through
`code.split("\n")`, `"\n".join(...)`, and the checks
`code.startswith(...)` / `code.endswith("```")` whose arguments contain no
newline — the former inspects only the first line, the latter only the
last.  The clean-up is therefore embedded on the newline-split lines of the
whitespace-trimmed response text `response.text.strip()`. -/

/-- Whether the first list of characters is a prefix of the second. -/
def charPrefix : List Char → List Char → Bool
  | [], _ => true
  | _ :: _, [] => false
  | a :: as, b :: bs => (a == b) && charPrefix as bs

/-- Embedding of `line.startswith(pre)` for a newline-free `pre`. -/
def lineStartsWith (l pre : String) : Bool := charPrefix pre.data l.data

/-- Embedding of `line.endswith(suf)` for a newline-free `suf`. -/
def lineEndsWith (l suf : String) : Bool :=
  charPrefix suf.data.reverse l.data.reverse

/-- Embedding of `code.startswith("```" + tag)` — the whole text starts with an opening
fence carrying the given language tag (empty tag: a generic fence). -/
def fenceOpen (code : List String) (tag : String) : Bool :=
  match code with
  | [] => false
  | l :: _ => lineStartsWith l ("```" ++ tag)

/-- Embedding of `code.endswith("```")` — the whole text ends with a closing fence. -/
def fenceClose (code : List String) : Bool :=
  match code.getLast? with
  | none => false
  | some l => lineEndsWith l "```"

/-- Embedding of `"\n".join(code.split("\n")[1:-1])` — drop the first and last line. -/
def unwrapFence (code : List String) : List String :=
  (code.drop 1).dropLast

/-- Lines 169-170: strip one generic fenced block if present. -/
def stripGenericFence (code : List String) : List String :=
  if fenceOpen code "" && fenceClose code then unwrapFence code else code

/-- Lines 173-175: for each language tag in turn, strip one fenced block
carrying that tag if present. -/
def stripLangFences (langs : List String) (code : List String) : List String :=
  langs.foldl
    (fun c lang => if fenceOpen c lang && fenceClose c then unwrapFence c else c)
    code

/-- The language tags checked by `_generate_component` (line 173). -/
def componentLangs : List String :=
  ["jsx", "vue", "typescript", "javascript", "html", "css"]

/-- The clean-up of `_generate_component` (lines 165-175) on the lines of
the trimmed response: strip one generic fence, then run the language-tag
loop. -/
def cleanupCode (langs : List String) (code : List String) : List String :=
  stripLangFences langs (stripGenericFence code)

/-- The clean-up of `_create_config_files` (lines 476-484) on the lines of
the trimmed response: strip one generic fence, then strip one `json`-tagged
fence if present. -/
def cleanPackageJson (code : List String) : List String :=
  let c := stripGenericFence code
  if fenceOpen c "json" && fenceClose c then unwrapFence c else c

/-! ### Registry operations (main.py lines 113-157) -/

/-- One entry of the `active_projects` registry (id excluded — it is the
key). -/
structure ProjectRec where
  name : String
  status : String
  progress : ℚ
  details : List (String × Val)
deriving DecidableEq

/-- The server state the handlers touch: the registry (an association list
with the semantics of a Python dict, keys unique) and the set of existing
project directories under the projects root, keyed by project name. -/
structure ServerState where
  active_projects : List (String × ProjectRec)
  projectDirs : List String
deriving DecidableEq

/-- Embedding of `project_id in active_projects` followed by the dict read. -/
def lookupProject (s : ServerState) (pid : String) : Option ProjectRec :=
  (s.active_projects.find? (fun p => p.1 == pid)).map Prod.snd

/-- Embedding of `get_project_status` (main.py lines 113-125): 404 for an unknown
identifier, otherwise the status view of the record. -/
def get_project_status (s : ServerState) (pid : String) :
    Except Nat (String × String × ℚ × List (String × Val)) :=
  match lookupProject s pid with
  | none => .error 404
  | some r => .ok (pid, r.status, r.progress, r.details)

/-- Embedding of `delete_project` (main.py lines 142-157): 404 for an unknown identifier
(state untouched); otherwise remove the project directory (`shutil.rmtree`
if it exists) and delete the registry entry, acknowledging success. -/
def delete_project (s : ServerState) (pid : String) :
    ServerState × Except Nat String :=
  match lookupProject s pid with
  | none => (s, .error 404)
  | some r =>
      (⟨s.active_projects.filter (fun p => !(p.1 == pid)),
        s.projectDirs.filter (fun d => !(d == r.name))⟩,
       .ok "Project deleted successfully")

/-- The full checkpoint sequence of the coordinator, in pipeline order. -/
def checkpointValues : List ℚ :=
  [0, 1/10, 2/10, 3/10, 5/10, 7/10, 8/10, 9/10, 1]

/-! ## Theorems -/

/-- The checkpoint sequence is non-decreasing. -/
theorem chain_checkpointValues :
    List.Chain' (fun p q => p ≤ q) checkpointValues := by
  norm_num [checkpointValues, List.chain'_cons]

/-- Any prefix of the checkpoint sequence is non-decreasing. -/
theorem chain_of_isPrefix (l : List ℚ) (h : l <+: checkpointValues) :
    List.Chain' (fun p q => p ≤ q) l :=
  List.Chain'.prefix chain_checkpointValues h

/-- Every checkpoint lies within the unit interval. -/
theorem mem_checkpointValues : ∀ p ∈ checkpointValues, 0 ≤ p ∧ p ≤ 1 := by
  norm_num [checkpointValues]

/-- A key absent from an association list is not found by lookup. -/
theorem find_eq_none_of_not_mem_keys (d : List (String × Val)) (k : String)
    (h : k ∉ d.map Prod.fst) : d.find? (fun p => p.1 == k) = none := by
  induction d with
  | nil => rfl
  | cons p ps ih =>
      simp only [List.map_cons, List.mem_cons] at h
      push_neg at h
      rw [List.find?_cons_of_neg _ (by simp [beq_iff_eq]; exact fun hc => h.1 hc.symm)]
      exact ih h.2

/-- Assigning with `dictSet` introduces no key other than the assigned one. -/
theorem not_mem_dictSet_keys (d : List (String × Val)) (k2 : String) (v : Val)
    (k : String) (h1 : k ∉ d.map Prod.fst) (hne : k ≠ k2) :
    k ∉ (dictSet d k2 v).map Prod.fst := by
  unfold dictSet
  split
  · intro hmem
    obtain ⟨p, hp, hpk⟩ := List.mem_map.1 hmem
    obtain ⟨q, hq, hqp⟩ := List.mem_map.1 hp
    by_cases hq2 : q.1 = k2
    · rw [if_pos hq2] at hqp
      exact hne (by rw [← hpk, ← hqp])
    · rw [if_neg hq2] at hqp
      exact h1 (List.mem_map.2 ⟨q, hq, by rw [hqp, hpk]⟩)
  · intro hmem
    rw [List.map_append] at hmem
    rcases List.mem_append.1 hmem with hm | hm
    · exact h1 hm
    · simp only [List.map_cons, List.map_nil, List.mem_singleton] at hm
      exact hne hm

/-- A key never assigned during the run and absent initially is absent from
the final `details` mapping. -/
theorem getDetail_none_of_not_set (k : String) (events : List Event) :
    ∀ st : ProjState, k ∉ st.details.map Prod.fst → k ∉ detailSetKeys events →
      getDetail ((events.foldl applyEvent st).details) k = none := by
  induction events with
  | nil =>
      intro st h1 _
      unfold getDetail
      rw [List.foldl_nil, find_eq_none_of_not_mem_keys st.details k h1]
      rfl
  | cons e es ih =>
      intro st h1 h2
      cases e with
      | setStatus s => exact ih _ h1 h2
      | setProgress p => exact ih _ h1 h2
      | mark m => exact ih _ h1 h2
      | callDocs v => exact ih _ h1 h2
      | setDetail k2 v =>
          have h4 : k ∉ k2 :: detailSetKeys es := h2
          simp only [List.mem_cons] at h4
          push_neg at h4
          exact ih _ (not_mem_dictSet_keys st.details k2 v k h1 h4.1) h4.2

/-- A failed run neither reports `completed` nor names the benign
failure-free listing point. -/
theorem error_status_rhs (fp : FailPoint) (hfp : fp ≠ .atGetFiles) :
    ¬(("error" : String) = "completed" ∨ some fp = some FailPoint.atGetFiles) :=
  fun hc => hc.elim (fun h => by simp at h) (fun h => hfp (Option.some.inj h))

/-- Every run's progress trace is a prefix of the checkpoint sequence: each
run walks the fixed checkpoints in order and stops where it fails. -/
theorem progressTrace_prefix_checkpoints (ai : Bool) (fail : Option FailPoint)
    (msg : String) (files : List String) :
    progressTrace (runEvents ai fail msg files) <+: checkpointValues := by
  rcases fail with _ | fp
  · cases ai <;> exact ⟨[], rfl⟩
  · cases fp <;> cases ai
    case atSetup.false => exact ⟨[1/10, 2/10, 3/10, 5/10, 7/10, 8/10, 9/10, 1], rfl⟩
    case atSetup.true => exact ⟨[1/10, 2/10, 3/10, 5/10, 7/10, 8/10, 9/10, 1], rfl⟩
    case atPlan.false => exact ⟨[2/10, 3/10, 5/10, 7/10, 8/10, 9/10, 1], rfl⟩
    case atPlan.true => exact ⟨[2/10, 3/10, 5/10, 7/10, 8/10, 9/10, 1], rfl⟩
    case atArchitecture.false => exact ⟨[3/10, 5/10, 7/10, 8/10, 9/10, 1], rfl⟩
    case atArchitecture.true => exact ⟨[3/10, 5/10, 7/10, 8/10, 9/10, 1], rfl⟩
    case atFrontend.false => exact ⟨[5/10, 7/10, 8/10, 9/10, 1], rfl⟩
    case atFrontend.true => exact ⟨[5/10, 7/10, 8/10, 9/10, 1], rfl⟩
    case atBackend.false => exact ⟨[7/10, 8/10, 9/10, 1], rfl⟩
    case atBackend.true => exact ⟨[7/10, 8/10, 9/10, 1], rfl⟩
    case atAi.false => exact ⟨[], rfl⟩
    case atAi.true => exact ⟨[8/10, 9/10, 1], rfl⟩
    case atDocs.false => exact ⟨[9/10, 1], rfl⟩
    case atDocs.true => exact ⟨[9/10, 1], rfl⟩
    case atFinalize.false => exact ⟨[1], rfl⟩
    case atFinalize.true => exact ⟨[1], rfl⟩
    case atGetFiles.false => exact ⟨[], rfl⟩
    case atGetFiles.true => exact ⟨[], rfl⟩

/-- C1.  On a successful pipeline run, the progress observed as each stage
completes equals the fixed checkpoint attached to it: 0.0 at submission,
0.1 after the plan stage completes, 0.2 after the architecture stage, 0.3
after the frontend stage, 0.5 after the backend stage, 0.7 after the AI
stage or its skip, 0.8 after the documentation stage, 0.9 at
finalize-start, and 1.0 at completion (with status `completed`). -/
theorem progress_checkpoints (req : ProjectRequest) (msg : String)
    (files : List String) :
    progressAtMark 0 (runEvents req.include_ai none msg files) .submitted = some 0 ∧
    progressAtMark 0 (runEvents req.include_ai none msg files) .planDone = some (1/10) ∧
    progressAtMark 0 (runEvents req.include_ai none msg files) .archDone = some (2/10) ∧
    progressAtMark 0 (runEvents req.include_ai none msg files) .frontendDone = some (3/10) ∧
    progressAtMark 0 (runEvents req.include_ai none msg files) .backendDone = some (5/10) ∧
    progressAtMark 0 (runEvents req.include_ai none msg files) .aiDoneOrSkipped = some (7/10) ∧
    progressAtMark 0 (runEvents req.include_ai none msg files) .docsDone = some (8/10) ∧
    progressAtMark 0 (runEvents req.include_ai none msg files) .finalizeStart = some (9/10) ∧
    (finalRun req none msg files).progress = 1 ∧
    (finalRun req none msg files).status = "completed" := by
  obtain ⟨n, d, ff, bf, db, ai, dt⟩ := req
  cases ai <;>
    exact ⟨rfl, rfl, rfl, rfl, rfl, rfl, rfl, rfl, rfl, rfl⟩

/-- C2 counterexample.  In the run where all seven stages complete and the
created-files listing `file_manager.get_project_files` (main.py line 279)
then raises, the terminal record has progress exactly 1.0 with status
`error` — so progress 1.0 does not imply status `completed`, refuting the
claimed equivalence. -/
theorem progress_one_with_error_status_cex :
    (finalRun demoReq (some .atGetFiles) "storage read failed" ["README.md"]).progress = 1 ∧
    (finalRun demoReq (some .atGetFiles) "storage read failed" ["README.md"]).status = "error" ∧
    ¬((finalRun demoReq (some .atGetFiles) "storage read failed" ["README.md"]).progress = 1 →
      (finalRun demoReq (some .atGetFiles) "storage read failed" ["README.md"]).status = "completed") := by
  exact ⟨rfl, rfl,
    fun himp => (by simp : ¬ ("error" : String) = "completed") (himp rfl)⟩

/-- C2 amended.  For every pipeline run, progress is monotonically
non-decreasing and stays within [0.0, 1.0]; status `completed` implies
progress exactly 1.0, and progress reaches 1.0 exactly when all seven
stages completed — but when the post-completion created-files listing
fails, the status is the terminal `error` instead of `completed` while
progress stays 1.0. -/
theorem progress_monotone_bounded (req : ProjectRequest) (fail : Option FailPoint)
    (msg : String) (files : List String) :
    List.Chain' (fun p q => p ≤ q)
      (progressTrace (runEvents req.include_ai fail msg files)) ∧
    (∀ p ∈ progressTrace (runEvents req.include_ai fail msg files),
      0 ≤ p ∧ p ≤ 1) ∧
    ((finalRun req fail msg files).progress = 1 ↔
      ((finalRun req fail msg files).status = "completed" ∨ fail = some .atGetFiles)) := by
  refine ⟨chain_of_isPrefix _ (progressTrace_prefix_checkpoints req.include_ai fail msg files),
    fun p hp =>
      mem_checkpointValues p ((progressTrace_prefix_checkpoints req.include_ai fail msg files).subset hp),
    ?_⟩
  obtain ⟨n, d, ff, bf, db, ai, dt⟩ := req
  rcases fail with _ | fp
  · cases ai <;> exact iff_of_true rfl (Or.inl rfl)
  · cases fp
    case atSetup =>
      cases ai <;>
        exact iff_of_false (by change ¬((0:ℚ) = 1); norm_num)
          (error_status_rhs _ (by decide))
    case atPlan =>
      cases ai <;>
        exact iff_of_false (by change ¬((1:ℚ)/10 = 1); norm_num)
          (error_status_rhs _ (by decide))
    case atArchitecture =>
      cases ai <;>
        exact iff_of_false (by change ¬((2:ℚ)/10 = 1); norm_num)
          (error_status_rhs _ (by decide))
    case atFrontend =>
      cases ai <;>
        exact iff_of_false (by change ¬((3:ℚ)/10 = 1); norm_num)
          (error_status_rhs _ (by decide))
    case atBackend =>
      cases ai <;>
        exact iff_of_false (by change ¬((5:ℚ)/10 = 1); norm_num)
          (error_status_rhs _ (by decide))
    case atAi =>
      cases ai
      · exact iff_of_true rfl (Or.inl rfl)
      · exact iff_of_false (by change ¬((7:ℚ)/10 = 1); norm_num)
          (error_status_rhs _ (by decide))
    case atDocs =>
      cases ai <;>
        exact iff_of_false (by change ¬((8:ℚ)/10 = 1); norm_num)
          (error_status_rhs _ (by decide))
    case atFinalize =>
      cases ai <;>
        exact iff_of_false (by change ¬((9:ℚ)/10 = 1); norm_num)
          (error_status_rhs _ (by decide))
    case atGetFiles =>
      cases ai <;> exact iff_of_true rfl (Or.inr rfl)

/-- C2 amended, witness: the trivial bound instance at the initial progress
value of the plain successful run. -/
theorem progress_monotone_bounded_witness : 0 ≤ (0 : ℚ) ∧ (0 : ℚ) ≤ 1 :=
  (progress_monotone_bounded demoReq none "" []).2.1 0 (List.mem_cons_self 0 _)

/-- C4 counterexample.  When the architecture stage raises, the terminal
record has progress 0.2 (set on entering `designing_architecture`, main.py
line 189, before the stage call on line 194) — strictly past the claimed
bound 0.1 — while status is `error` and the message is recorded verbatim. -/
theorem architecture_failure_cex :
    (finalRun demoReq (some .atArchitecture) "AdapterError: model call failed" []).status = "error" ∧
    getDetail (finalRun demoReq (some .atArchitecture) "AdapterError: model call failed" []).details
      "error" = some (.str "AdapterError: model call failed") ∧
    (finalRun demoReq (some .atArchitecture) "AdapterError: model call failed" []).progress = 2/10 ∧
    ¬((finalRun demoReq (some .atArchitecture) "AdapterError: model call failed" []).progress ≤ 1/10) := by
  exact ⟨rfl, rfl, rfl, by change ¬((2:ℚ)/10 ≤ 1/10); norm_num⟩

/-- C4 amended.  If the architecture stage raises, the status becomes the
terminal `error` state, progress never advances past 0.2 (the checkpoint
set on entering the architecture stage) and ends exactly there, and
`details.error` holds the failure message verbatim — in particular it is
non-empty whenever the message is. -/
theorem architecture_failure_state (req : ProjectRequest) (msg : String)
    (files : List String) (h : msg ≠ "") :
    (finalRun req (some .atArchitecture) msg files).status = "error" ∧
    getDetail (finalRun req (some .atArchitecture) msg files).details "error" =
      some (.str msg) ∧
    getDetail (finalRun req (some .atArchitecture) msg files).details "error" ≠
      some (.str "") ∧
    (finalRun req (some .atArchitecture) msg files).progress = 2/10 ∧
    (∀ p ∈ progressTrace (runEvents req.include_ai (some .atArchitecture) msg files),
      p ≤ 2/10) := by
  obtain ⟨n, d, ff, bf, db, ai, dt⟩ := req
  cases ai <;>
    exact ⟨rfl, rfl,
      fun hc =>
        h (Val.str.inj (Option.some.inj
          (show some (Val.str msg) = some (Val.str "") from hc))),
      rfl,
      by change ∀ p ∈ ([0, 1/10, 2/10] : List ℚ), p ≤ 2/10; norm_num⟩

/-- C4 amended, witness at a concrete non-empty message. -/
theorem architecture_failure_state_witness :
    (finalRun demoReq (some .atArchitecture) "boom" []).status = "error" :=
  (architecture_failure_state demoReq "boom" [] (by decide)).1

/-- C5.  For every request with `include_ai = false`, no run ever sets the
status `creating_ai_components`, the terminal `details` mapping holds no
`ai_results` key, and the documentation stage is invoked with the empty AI
artifact; on the failure-free run it is invoked exactly once with that
empty artifact and the run completes. -/
theorem no_ai_requested_skips_ai_stage (req : ProjectRequest)
    (fail : Option FailPoint) (msg : String) (files : List String)
    (h : req.include_ai = false) :
    "creating_ai_components" ∉ statusTrace (runEvents req.include_ai fail msg files) ∧
    getDetail (finalRun req fail msg files).details "ai_results" = none ∧
    (∀ v ∈ docsArgs (runEvents req.include_ai fail msg files), v = Val.emptyAiDoc) ∧
    docsArgs (runEvents req.include_ai none msg files) = [Val.emptyAiDoc] ∧
    (finalRun req none msg files).status = "completed" := by
  obtain ⟨n, d, ff, bf, db, ai, dt⟩ := req
  have h2 : ai = false := h
  subst h2
  refine ⟨?_, ?_, ?_, rfl, rfl⟩
  case refine_2 =>
    refine getDetail_none_of_not_set "ai_results" _ _ ?_ ?_
    · change "ai_results" ∉ (["description", "frontend_framework",
        "backend_framework", "database", "include_ai", "deployment_target",
        "created_files"] : List String)
      decide
    · rcases fail with _ | fp
      · change "ai_results" ∉ (["project_plan", "architecture",
          "frontend_results", "backend_results", "doc_results", "final_report",
          "created_files"] : List String)
        decide
      · cases fp
        case atSetup => change "ai_results" ∉ (["error"] : List String); decide
        case atPlan => change "ai_results" ∉ (["error"] : List String); decide
        case atArchitecture =>
          change "ai_results" ∉ (["project_plan", "error"] : List String); decide
        case atFrontend =>
          change "ai_results" ∉
            (["project_plan", "architecture", "error"] : List String)
          decide
        case atBackend =>
          change "ai_results" ∉ (["project_plan", "architecture",
            "frontend_results", "error"] : List String)
          decide
        case atAi =>
          change "ai_results" ∉ (["project_plan", "architecture",
            "frontend_results", "backend_results", "doc_results", "final_report",
            "created_files"] : List String)
          decide
        case atDocs =>
          change "ai_results" ∉ (["project_plan", "architecture",
            "frontend_results", "backend_results", "error"] : List String)
          decide
        case atFinalize =>
          change "ai_results" ∉ (["project_plan", "architecture",
            "frontend_results", "backend_results", "doc_results",
            "error"] : List String)
          decide
        case atGetFiles =>
          change "ai_results" ∉ (["project_plan", "architecture",
            "frontend_results", "backend_results", "doc_results", "final_report",
            "error"] : List String)
          decide
  · rcases fail with _ | fp
    · change "creating_ai_components" ∉ (["initializing", "planning",
        "designing_architecture", "creating_frontend", "creating_backend",
        "creating_documentation", "finalizing", "completed"] : List String)
      decide
    · cases fp
      case atSetup =>
        change "creating_ai_components" ∉ (["initializing", "error"] : List String)
        decide
      case atPlan =>
        change "creating_ai_components" ∉
          (["initializing", "planning", "error"] : List String)
        decide
      case atArchitecture =>
        change "creating_ai_components" ∉ (["initializing", "planning",
          "designing_architecture", "error"] : List String)
        decide
      case atFrontend =>
        change "creating_ai_components" ∉ (["initializing", "planning",
          "designing_architecture", "creating_frontend", "error"] : List String)
        decide
      case atBackend =>
        change "creating_ai_components" ∉ (["initializing", "planning",
          "designing_architecture", "creating_frontend", "creating_backend",
          "error"] : List String)
        decide
      case atAi =>
        change "creating_ai_components" ∉ (["initializing", "planning",
          "designing_architecture", "creating_frontend", "creating_backend",
          "creating_documentation", "finalizing", "completed"] : List String)
        decide
      case atDocs =>
        change "creating_ai_components" ∉ (["initializing", "planning",
          "designing_architecture", "creating_frontend", "creating_backend",
          "creating_documentation", "error"] : List String)
        decide
      case atFinalize =>
        change "creating_ai_components" ∉ (["initializing", "planning",
          "designing_architecture", "creating_frontend", "creating_backend",
          "creating_documentation", "finalizing", "error"] : List String)
        decide
      case atGetFiles =>
        change "creating_ai_components" ∉ (["initializing", "planning",
          "designing_architecture", "creating_frontend", "creating_backend",
          "creating_documentation", "finalizing", "completed", "error"] : List String)
        decide
  · rcases fail with _ | fp
    · change ∀ v ∈ ([Val.emptyAiDoc] : List Val), v = Val.emptyAiDoc
      decide
    · cases fp
      case atSetup => change ∀ v ∈ ([] : List Val), v = Val.emptyAiDoc; decide
      case atPlan => change ∀ v ∈ ([] : List Val), v = Val.emptyAiDoc; decide
      case atArchitecture => change ∀ v ∈ ([] : List Val), v = Val.emptyAiDoc; decide
      case atFrontend => change ∀ v ∈ ([] : List Val), v = Val.emptyAiDoc; decide
      case atBackend => change ∀ v ∈ ([] : List Val), v = Val.emptyAiDoc; decide
      case atAi =>
        change ∀ v ∈ ([Val.emptyAiDoc] : List Val), v = Val.emptyAiDoc; decide
      case atDocs =>
        change ∀ v ∈ ([Val.emptyAiDoc] : List Val), v = Val.emptyAiDoc; decide
      case atFinalize =>
        change ∀ v ∈ ([Val.emptyAiDoc] : List Val), v = Val.emptyAiDoc; decide
      case atGetFiles =>
        change ∀ v ∈ ([Val.emptyAiDoc] : List Val), v = Val.emptyAiDoc; decide

set_option maxHeartbeats 1600000 in
/-- C5 witness: the failure-free run of the demo request. -/
theorem no_ai_requested_skips_ai_stage_witness :
    "creating_ai_components" ∉ statusTrace (runEvents demoReq.include_ai none "" []) :=
  (no_ai_requested_skips_ai_stage demoReq none "" [] rfl).1

/-- C6.  For every request with `include_ai = true`, whenever a run sets
the status `creating_documentation` it has set `creating_ai_components`
strictly earlier in the status trace. -/
theorem ai_stage_before_documentation (req : ProjectRequest)
    (fail : Option FailPoint) (msg : String) (files : List String)
    (h : req.include_ai = true)
    (h2 : "creating_documentation" ∈ statusTrace (runEvents req.include_ai fail msg files)) :
    "creating_ai_components" ∈ statusTrace (runEvents req.include_ai fail msg files) ∧
    (statusTrace (runEvents req.include_ai fail msg files)).findIdx
        (fun s => s == "creating_ai_components") <
      (statusTrace (runEvents req.include_ai fail msg files)).findIdx
        (fun s => s == "creating_documentation") := by
  obtain ⟨n, d, ff, bf, db, ai, dt⟩ := req
  have h3 : ai = true := h
  subst h3
  rcases fail with _ | fp
  · change "creating_ai_components" ∈ (["initializing", "planning",
      "designing_architecture", "creating_frontend", "creating_backend",
      "creating_ai_components", "creating_documentation", "finalizing",
      "completed"] : List String) ∧
      (["initializing", "planning", "designing_architecture", "creating_frontend",
        "creating_backend", "creating_ai_components", "creating_documentation",
        "finalizing", "completed"] : List String).findIdx
          (fun s => s == "creating_ai_components") <
        (["initializing", "planning", "designing_architecture", "creating_frontend",
          "creating_backend", "creating_ai_components", "creating_documentation",
          "finalizing", "completed"] : List String).findIdx
          (fun s => s == "creating_documentation")
    decide
  · cases fp
    case atSetup =>
      exact absurd h2 (by
        change "creating_documentation" ∉ (["initializing", "error"] : List String)
        decide)
    case atPlan =>
      exact absurd h2 (by
        change "creating_documentation" ∉
          (["initializing", "planning", "error"] : List String)
        decide)
    case atArchitecture =>
      exact absurd h2 (by
        change "creating_documentation" ∉ (["initializing", "planning",
          "designing_architecture", "error"] : List String)
        decide)
    case atFrontend =>
      exact absurd h2 (by
        change "creating_documentation" ∉ (["initializing", "planning",
          "designing_architecture", "creating_frontend", "error"] : List String)
        decide)
    case atBackend =>
      exact absurd h2 (by
        change "creating_documentation" ∉ (["initializing", "planning",
          "designing_architecture", "creating_frontend", "creating_backend",
          "error"] : List String)
        decide)
    case atAi =>
      exact absurd h2 (by
        change "creating_documentation" ∉ (["initializing", "planning",
          "designing_architecture", "creating_frontend", "creating_backend",
          "creating_ai_components", "error"] : List String)
        decide)
    case atDocs =>
      change "creating_ai_components" ∈ (["initializing", "planning",
        "designing_architecture", "creating_frontend", "creating_backend",
        "creating_ai_components", "creating_documentation", "error"] : List String) ∧
        (["initializing", "planning", "designing_architecture", "creating_frontend",
          "creating_backend", "creating_ai_components", "creating_documentation",
          "error"] : List String).findIdx
            (fun s => s == "creating_ai_components") <
          (["initializing", "planning", "designing_architecture", "creating_frontend",
            "creating_backend", "creating_ai_components", "creating_documentation",
            "error"] : List String).findIdx
            (fun s => s == "creating_documentation")
      decide
    case atFinalize =>
      change "creating_ai_components" ∈ (["initializing", "planning",
        "designing_architecture", "creating_frontend", "creating_backend",
        "creating_ai_components", "creating_documentation", "finalizing",
        "error"] : List String) ∧
        (["initializing", "planning", "designing_architecture", "creating_frontend",
          "creating_backend", "creating_ai_components", "creating_documentation",
          "finalizing", "error"] : List String).findIdx
            (fun s => s == "creating_ai_components") <
          (["initializing", "planning", "designing_architecture", "creating_frontend",
            "creating_backend", "creating_ai_components", "creating_documentation",
            "finalizing", "error"] : List String).findIdx
            (fun s => s == "creating_documentation")
      decide
    case atGetFiles =>
      change "creating_ai_components" ∈ (["initializing", "planning",
        "designing_architecture", "creating_frontend", "creating_backend",
        "creating_ai_components", "creating_documentation", "finalizing",
        "completed", "error"] : List String) ∧
        (["initializing", "planning", "designing_architecture", "creating_frontend",
          "creating_backend", "creating_ai_components", "creating_documentation",
          "finalizing", "completed", "error"] : List String).findIdx
            (fun s => s == "creating_ai_components") <
          (["initializing", "planning", "designing_architecture", "creating_frontend",
            "creating_backend", "creating_ai_components", "creating_documentation",
            "finalizing", "completed", "error"] : List String).findIdx
            (fun s => s == "creating_documentation")
      decide

set_option maxHeartbeats 1600000 in
/-- C6 witness: the failure-free run of the AI-opted demo request. -/
theorem ai_stage_before_documentation_witness :
    "creating_ai_components" ∈ statusTrace (runEvents demoReqAi.include_ai none "" []) :=
  (ai_stage_before_documentation demoReqAi none "" [] rfl (by
    change "creating_documentation" ∈ (["initializing", "planning",
      "designing_architecture", "creating_frontend", "creating_backend",
      "creating_ai_components", "creating_documentation", "finalizing",
      "completed"] : List String)
    decide)).1

/-- C7 counterexample.  The successful run rebinds the `created_files` key
of `details` — present since submission with the empty listing (main.py
line 96) — to the project file listing at completion (line 279); that key
is not the `error` field, refuting append-only-except-error. -/
theorem details_overwrite_cex :
    overwrittenKeys ((initDetails demoReq).map Prod.fst)
        (runEvents demoReq.include_ai none "" ["README.md"]) = ["created_files"] ∧
    ("created_files" : String) ≠ "error" := by
  exact ⟨rfl, by decide⟩

/-- C7 amended.  Across every pipeline run, updates to `details` only add
new keys, except that the `created_files` key (initialized to the empty
listing at submission) is rebound once at completion; in particular the
terminal `error` field itself is only ever added, never rebound, so the
rebound keys of any run are none or exactly `created_files`. -/
theorem details_append_only (req : ProjectRequest) (fail : Option FailPoint)
    (msg : String) (files : List String) :
    overwrittenKeys ((initDetails req).map Prod.fst)
        (runEvents req.include_ai fail msg files) = [] ∨
    overwrittenKeys ((initDetails req).map Prod.fst)
        (runEvents req.include_ai fail msg files) = ["created_files"] := by
  obtain ⟨n, d, ff, bf, db, ai, dt⟩ := req
  rcases fail with _ | fp
  · cases ai <;> exact Or.inr rfl
  · cases fp
    case atAi =>
      cases ai
      · exact Or.inr rfl
      · exact Or.inl rfl
    all_goals cases ai <;> exact Or.inl rfl

/-- Every task rank is 0, 1 or 2. -/
theorem priorityRank_cases (t : Task) :
    priorityRank t = 0 ∨ priorityRank t = 1 ∨ priorityRank t = 2 := by
  simp only [priorityRank]
  split_ifs <;> simp

/-- Inserting before the first greater-or-equal rank puts the new task in
front when every element already ranks at least as high. -/
theorem insertByRank_front (t : Task) (l : List Task)
    (h : ∀ u ∈ l, priorityRank t ≤ priorityRank u) : insertByRank t l = t :: l := by
  cases l with
  | nil => rfl
  | cons u us =>
      unfold insertByRank
      rw [if_pos (h u (List.mem_cons_self u us))]

/-- Insertion passes over every element of strictly smaller rank. -/
theorem insertByRank_append (t : Task) (A B : List Task)
    (h : ∀ u ∈ A, priorityRank u < priorityRank t) :
    insertByRank t (A ++ B) = A ++ insertByRank t B := by
  induction A with
  | nil => rfl
  | cons a as ih =>
      have ha := h a (List.mem_cons_self a as)
      calc insertByRank t (a :: (as ++ B))
          = a :: insertByRank t (as ++ B) := by
            show (if priorityRank t ≤ priorityRank a then t :: a :: (as ++ B)
                else a :: insertByRank t (as ++ B)) =
              a :: insertByRank t (as ++ B)
            rw [if_neg (by omega)]
        _ = a :: (as ++ insertByRank t B) := by
            rw [ih (fun u hu => h u (List.mem_cons_of_mem a hu))]

/-- Members of a rank bucket have that rank. -/
theorem mem_rankFilter_rank {k : Nat} {ts : List Task} {u : Task}
    (h : u ∈ rankFilter k ts) : priorityRank u = k := by
  have h2 := List.mem_filter.1 h
  simpa using h2.2

/-- The stable-sort characterization: sorting by rank lists the rank-0
bucket, then the rank-1 bucket, then the rank-2 bucket, each in original
order. -/
theorem sortTasks_buckets (ts : List Task) :
    sortTasks ts = rankFilter 0 ts ++ rankFilter 1 ts ++ rankFilter 2 ts := by
  induction ts with
  | nil => rfl
  | cons t ts ih =>
      show insertByRank t (sortTasks ts) = _
      rw [ih]
      rcases priorityRank_cases t with h0 | h1 | h2
      · rw [insertByRank_front t _ (fun u _ => by rw [h0]; exact Nat.zero_le _)]
        simp [rankFilter, List.filter_cons, h0]
      · rw [List.append_assoc,
          insertByRank_append t _ _
            (fun u hu => by rw [mem_rankFilter_rank hu, h1]; omega),
          insertByRank_front t _
            (fun u hu => by
              rcases List.mem_append.1 hu with hm | hm
              · rw [mem_rankFilter_rank hm, h1]
              · rw [mem_rankFilter_rank hm, h1]; omega)]
        simp [rankFilter, List.filter_cons, h1]
      · rw [insertByRank_append t _ _
            (fun u hu => by
              rcases List.mem_append.1 hu with hm | hm
              · rw [mem_rankFilter_rank hm, h2]; omega
              · rw [mem_rankFilter_rank hm, h2]; omega),
          insertByRank_front t _
            (fun u hu => by rw [mem_rankFilter_rank hu, h2])]
        simp [rankFilter, List.filter_cons, h2]

/-- Buckets distribute over list append. -/
theorem rankFilter_append (k : Nat) (A B : List Task) :
    rankFilter k (A ++ B) = rankFilter k A ++ rankFilter k B := by
  unfold rankFilter
  exact List.filter_append A B

/-- Filtering a bucket by its own rank keeps it. -/
theorem rankFilter_self (j : Nat) (ts : List Task) :
    rankFilter j (rankFilter j ts) = rankFilter j ts :=
  List.filter_eq_self.2 (fun u hu => by simp [mem_rankFilter_rank hu])

/-- Filtering a bucket by a different rank empties it. -/
theorem rankFilter_other {k j : Nat} (hne : k ≠ j) (ts : List Task) :
    rankFilter k (rankFilter j ts) = [] := by
  rw [rankFilter, List.filter_eq_nil_iff]
  intro u hu
  have h2 := mem_rankFilter_rank hu
  simp [h2]
  omega

/-- There is no bucket beyond rank 2. -/
theorem rankFilter_out (k : Nat) (h0 : k ≠ 0) (h1 : k ≠ 1) (h2 : k ≠ 2)
    (ts : List Task) : rankFilter k ts = [] := by
  rw [rankFilter, List.filter_eq_nil_iff]
  intro u _
  rcases priorityRank_cases u with hu | hu | hu <;> simp [hu] <;> omega

/-- C10.  Both stage executors process their task list in non-decreasing
priority rank (every high-priority task before every medium one before
every low one), the sorted order lists the rank buckets in original
relative order (Python `sorted` is stable), a missing priority reads as
`medium`, and an unrecognized one falls back to the `medium` rank. -/
theorem tasks_processed_in_priority_order (ts : List Task) :
    List.Pairwise (fun a b => priorityRank a ≤ priorityRank b) (sortTasks ts) ∧
    sortTasks ts = rankFilter 0 ts ++ rankFilter 1 ts ++ rankFilter 2 ts ∧
    (∀ k, rankFilter k (sortTasks ts) = rankFilter k ts) ∧
    (∀ t : Task, t.priority = some "high" → priorityRank t = 0) ∧
    (∀ t : Task, t.priority = some "low" → priorityRank t = 2) ∧
    (∀ t : Task, t.priority = none → priorityRank t = 1) ∧
    (∀ t : Task, ∀ p : String, t.priority = some p → p ≠ "high" → p ≠ "low" →
      priorityRank t = 1) := by
  refine ⟨?_, sortTasks_buckets ts, ?_, ?_, ?_, ?_, ?_⟩
  · rw [sortTasks_buckets, List.pairwise_append]
    refine ⟨?_, ?_, ?_⟩
    · rw [List.pairwise_append]
      refine ⟨?_, ?_, ?_⟩
      · exact List.pairwise_of_forall_mem_list (fun a ha b hb => by
          rw [mem_rankFilter_rank ha, mem_rankFilter_rank hb])
      · exact List.pairwise_of_forall_mem_list (fun a ha b hb => by
          rw [mem_rankFilter_rank ha, mem_rankFilter_rank hb])
      · intro a ha b hb
        rw [mem_rankFilter_rank ha, mem_rankFilter_rank hb]
        omega
    · exact List.pairwise_of_forall_mem_list (fun a ha b hb => by
        rw [mem_rankFilter_rank ha, mem_rankFilter_rank hb])
    · intro a ha b hb
      rcases List.mem_append.1 ha with hm | hm <;>
        · rw [mem_rankFilter_rank hm, mem_rankFilter_rank hb]
          omega
  · intro k
    rw [sortTasks_buckets, rankFilter_append, rankFilter_append]
    by_cases hk0 : k = 0
    · subst hk0
      rw [rankFilter_self, rankFilter_other (by omega), rankFilter_other (by omega)]
      simp
    by_cases hk1 : k = 1
    · subst hk1
      rw [rankFilter_other (by omega), rankFilter_self, rankFilter_other (by omega)]
      simp
    by_cases hk2 : k = 2
    · subst hk2
      rw [rankFilter_other (by omega), rankFilter_other (by omega), rankFilter_self]
      simp
    · rw [rankFilter_other hk0, rankFilter_other hk1, rankFilter_other hk2,
        rankFilter_out k hk0 hk1 hk2]
      simp
  · intro t ht
    simp [priorityRank, ht]
  · intro t ht
    simp [priorityRank, ht]
  · intro t ht
    simp [priorityRank, ht]
  · intro t p ht hph hpl
    simp only [priorityRank, ht, Option.getD_some]
    split_ifs <;> simp_all

/-- C10 witness: a task whose priority token is unrecognized ranks as
`medium`. -/
theorem tasks_processed_in_priority_order_witness :
    priorityRank ⟨none, none, some "urgent"⟩ = 1 :=
  (tasks_processed_in_priority_order []).2.2.2.2.2.2
    ⟨none, none, some "urgent"⟩ "urgent" rfl (by decide) (by decide)

/-- C8 counterexample.  For a response wrapped in two nested fenced blocks
whose inner fence carries a listed language tag, the clean-up strips both
layers: the generic strip removes the outer fence and the language-tag loop
then removes the inner one, so the inner fence is not preserved. -/
theorem fence_double_strip_cex :
    cleanupCode componentLangs ["```", "```jsx", "hello", "```", "```"] =
      ["hello"] ∧
    cleanupCode componentLangs ["```", "```jsx", "hello", "```", "```"] ≠
      ["```jsx", "hello", "```"] := by
  refine ⟨rfl, ?_⟩
  intro h
  exact absurd (congrArg List.length h) (by decide)

/-- The language-tag loop strips at most one delimiter layer per listed
tag and performs nothing else. -/
theorem stripLangFences_iterate (langs : List String) (c : List String) :
    ∃ m ≤ langs.length, stripLangFences langs c = unwrapFence^[m] c := by
  induction langs generalizing c with
  | nil => exact ⟨0, Nat.le_refl 0, rfl⟩
  | cons lang ls ih =>
      by_cases hc : (fenceOpen c lang && fenceClose c) = true
      · obtain ⟨m, hm, he⟩ := ih (unwrapFence c)
        refine ⟨m + 1, Nat.succ_le_succ hm, ?_⟩
        rw [show stripLangFences (lang :: ls) c = stripLangFences ls (unwrapFence c)
            from by
          show stripLangFences ls
              (if (fenceOpen c lang && fenceClose c) = true then unwrapFence c
                else c) = stripLangFences ls (unwrapFence c)
          rw [if_pos hc],
          he, Function.iterate_succ_apply]
      · obtain ⟨m, hm, he⟩ := ih c
        refine ⟨m, Nat.le_succ_of_le hm, ?_⟩
        rw [show stripLangFences (lang :: ls) c = stripLangFences ls c
            from by
          show stripLangFences ls
              (if (fenceOpen c lang && fenceClose c) = true then unwrapFence c
                else c) = stripLangFences ls c
          rw [if_neg hc]]
        exact he

/-- C8 amended.  Each clean-up only iterates the single line-dropping
delimiter strip on the trimmed response — at most one generic layer plus at
most one layer per listed language tag (at most two layers for the
package.json clean-up) — with no other coercion; an input wrapped in two
nested generic fences keeps its inner fence, but a listed language-tagged
inner fence is also stripped. -/
theorem fence_stripping_amended :
    (∀ (langs : List String) (c : List String),
      ∃ n ≤ langs.length + 1, cleanupCode langs c = unwrapFence^[n] c) ∧
    (∀ c : List String, ∃ n ≤ 2, cleanPackageJson c = unwrapFence^[n] c) ∧
    cleanupCode componentLangs ["```", "```", "hi", "```", "```"] =
      ["```", "hi", "```"] := by
  refine ⟨?_, ?_, rfl⟩
  · intro langs c
    unfold cleanupCode
    by_cases hc : (fenceOpen c "" && fenceClose c) = true
    · obtain ⟨m, hm, he⟩ := stripLangFences_iterate langs (unwrapFence c)
      refine ⟨m + 1, Nat.succ_le_succ hm, ?_⟩
      rw [show stripGenericFence c = unwrapFence c from by
          unfold stripGenericFence; rw [if_pos hc],
        he, Function.iterate_succ_apply]
    · obtain ⟨m, hm, he⟩ := stripLangFences_iterate langs c
      refine ⟨m, Nat.le_succ_of_le hm, ?_⟩
      rw [show stripGenericFence c = c from by
        unfold stripGenericFence; rw [if_neg hc]]
      exact he
  · intro c
    unfold cleanPackageJson
    by_cases hc : (fenceOpen c "" && fenceClose c) = true
    · rw [show stripGenericFence c = unwrapFence c from by
        unfold stripGenericFence; rw [if_pos hc]]
      by_cases hj : (fenceOpen (unwrapFence c) "json" && fenceClose (unwrapFence c)) = true
      · exact ⟨2, Nat.le_refl 2, by rw [if_pos hj]; rfl⟩
      · exact ⟨1, by omega, by rw [if_neg hj]; rfl⟩
    · rw [show stripGenericFence c = c from by
        unfold stripGenericFence; rw [if_neg hc]]
      by_cases hj : (fenceOpen c "json" && fenceClose c) = true
      · exact ⟨1, by omega, by rw [if_pos hj]; rfl⟩
      · exact ⟨0, by omega, by rw [if_neg hj]; rfl⟩

/-- The write trace of one backend loop iteration extends the accumulator
by the writes of the processed task. -/
theorem backendStep_writes (env : BackendEnv)
    (acc : List WriteOp × List Task × List String) (t : Task) :
    (backendStep env acc t).1 = acc.1 ++ (env.processTask t).1 := by
  unfold backendStep
  rcases env.processTask t with ⟨ws, r⟩
  cases r <;> rfl

/-- The backend task loop only accumulates the writes of its task
processing calls. -/
theorem backend_foldl_writes (env : BackendEnv) :
    ∀ (l : List Task) (acc : List WriteOp × List Task × List String),
      ((l.foldl (backendStep env) acc).1 =
        acc.1 ++ l.flatMap (fun t => (env.processTask t).1)) := by
  intro l
  induction l with
  | nil => intro acc; simp
  | cons t ts ih =>
      intro acc
      rw [List.foldl_cons, ih, backendStep_writes]
      simp

/-- The frontend task loop only accumulates the writes of its task
processing calls. -/
theorem frontend_foldl_writes (env : FrontendEnv) :
    ∀ (l : List Task) (acc : List WriteOp × List CompletedEntry × List String),
      ((l.foldl (frontendStep env) acc).1 =
        acc.1 ++ l.flatMap (fun t => (env.processTask t).1)) := by
  intro l
  induction l with
  | nil => intro acc; simp
  | cons t ts ih =>
      intro acc
      rw [List.foldl_cons, ih]
      rw [show (frontendStep env acc t).1 = acc.1 ++ (env.processTask t).1 from by
        unfold frontendStep; rcases env.processTask t with ⟨ws, r⟩; rfl]
      simp

/-- The last element of a list ending in an explicit singleton. -/
theorem getLast_append_singleton {α : Type} (A : List α) (w : α) :
    (A ++ [w]).getLast? = some w := by
  induction A with
  | nil => rfl
  | cons a as ih =>
      cases as with
      | nil => rfl
      | cons b bs =>
          rw [List.cons_append, List.cons_append, List.getLast?_cons_cons]
          rw [List.cons_append] at ih
          exact ih


/-- C3 counterexample.  A pipeline run completes while the backend
executor, run on the Express/MongoDB setup with an empty task list, has
persisted many files but never its own results object: the write trace
holds no document serializing the returned backend results, so the
backend artifact is not durable when status reports `completed`. -/
theorem backend_artifact_not_persisted_cex :
    (finalRun demoReq none "" ["README.md"]).status = "completed" ∧
    persistsBackendArtifact (implement_backend expressSetupEnv []).1
      (implement_backend expressSetupEnv []).2 = false ∧
    (implement_backend expressSetupEnv []).1 ≠ [] := by
  exact ⟨rfl, by decide, by decide⟩

/-- C3 amended.  The frontend executor persists its results object as its
final durable write (to `frontend/frontend_results.json`) before
returning, but the backend executor's write trace consists exactly of the
writes of its setup, task-processing and finalize collaborators — it
appends no write of its own, in particular no persistence of the results
object it returns. -/
theorem artifact_persistence_amended :
    (∀ (env : FrontendEnv) (tasks : List Task),
      ((implement_frontend env tasks).1).getLast? =
        some ⟨"frontend/frontend_results.json",
          .frontendResultsJson (implement_frontend env tasks).2⟩) ∧
    (∀ (env : BackendEnv) (tasks : List Task),
      (implement_backend env tasks).1 =
        (env.setupWrites ++ backendTaskWrites env tasks) ++
          env.finalizeWrites (sortTasks tasks)) := by
  constructor
  · intro env tasks
    conv_lhs => simp only [implement_frontend]
    conv_rhs => simp only [implement_frontend]
    exact getLast_append_singleton _ _
  · intro env tasks
    conv_lhs => simp only [implement_backend]
    rw [backend_foldl_writes]
    rfl

/-- An identifier removed from the registry by filtering is no longer
found. -/
theorem lookup_filter_none (l : List (String × ProjectRec)) (pid : String) :
    (l.filter (fun p => !(p.1 == pid))).find? (fun p => p.1 == pid) = none := by
  rw [List.find?_eq_none]
  intro x hx
  have h2 := List.mem_filter.1 hx
  simpa using h2.2

/-- A status query on a registry that does not hold the identifier fails
with 404. -/
theorem get_project_status_404 (s : ServerState) (pid : String)
    (h : lookupProject s pid = none) : get_project_status s pid = .error 404 := by
  unfold get_project_status
  rw [h]

/-- C9.  Deleting an identifier absent from the registry fails with 404 and
changes nothing; deleting a known identifier acknowledges success, removes
the registry entry — so a subsequent status query on that identifier fails
with 404 — and removes the project's directory, keyed by the project's
name, from the projects root. -/
theorem delete_project_contract (s : ServerState) (pid : String) :
    (lookupProject s pid = none → delete_project s pid = (s, .error 404)) ∧
    (∀ r : ProjectRec, lookupProject s pid = some r →
      (delete_project s pid).2 = .ok "Project deleted successfully" ∧
      lookupProject (delete_project s pid).1 pid = none ∧
      get_project_status (delete_project s pid).1 pid = .error 404 ∧
      r.name ∉ (delete_project s pid).1.projectDirs) := by
  constructor
  · intro h
    unfold delete_project
    rw [h]
  · intro r h
    have hdel : delete_project s pid =
        (⟨s.active_projects.filter (fun p => !(p.1 == pid)),
          s.projectDirs.filter (fun d => !(d == r.name))⟩,
         .ok "Project deleted successfully") := by
      unfold delete_project
      rw [h]
    rw [hdel]
    have hlook : lookupProject
        (⟨s.active_projects.filter (fun p => !(p.1 == pid)),
          s.projectDirs.filter (fun d => !(d == r.name))⟩ : ServerState) pid = none := by
      unfold lookupProject
      rw [lookup_filter_none]
      rfl
    refine ⟨rfl, hlook, get_project_status_404 _ _ hlook, ?_⟩
    intro hmem
    have h2 := List.mem_filter.1 hmem
    simpa using h2.2

/-- C9 witness: deleting an unknown identifier 404s; after deleting a known
identifier its status query 404s. -/
theorem delete_project_contract_witness :
    delete_project ⟨[("id1", ⟨"demo", "completed", 1, []⟩)], ["demo"]⟩ "missing" =
      (⟨[("id1", ⟨"demo", "completed", 1, []⟩)], ["demo"]⟩, .error 404) ∧
    get_project_status
      (delete_project ⟨[("id1", ⟨"demo", "completed", 1, []⟩)], ["demo"]⟩ "id1").1
      "id1" = .error 404 :=
  ⟨(delete_project_contract ⟨[("id1", ⟨"demo", "completed", 1, []⟩)], ["demo"]⟩
      "missing").1 rfl,
   ((delete_project_contract ⟨[("id1", ⟨"demo", "completed", 1, []⟩)], ["demo"]⟩
      "id1").2 ⟨"demo", "completed", 1, []⟩ rfl).2.2.1⟩

end VibeCoding
